import Mathlib

/-!
Verification of the Computer-Vision-x-Arduino repository core logic:
the temporal smoothing buffers, the smile/frown classifier thresholds,
the finger-counting heuristics, and the serial output channel with its
change gate, embedded shallowly from `FacialExpression.py` and
`_5Fingers.py`.  Python floats are embedded as exact rationals, machine
ints as `ℤ`/`ℕ`.
-/

namespace CVA

/-! ### Temporal smoothing buffers

`collections.deque(maxlen=cap)` with `append` keeps the last `cap`
elements appended, evicting the oldest when full.  We represent the
deque as a `List` with the most recent element at the tail; appending
keeps the length-`cap` suffix.
-/

/-- One `deque.append` on a deque with `maxlen = cap`: append `v` at the
tail and keep only the last `cap` elements. -/
def dequeAppend {α : Type} (cap : ℕ) (buf : List α) (v : α) : List α :=
  (buf ++ [v]).rtake cap

/-- Appending a whole sequence of observations, oldest first
(the buffer state after a sequence of `push` calls). -/
def pushAll {α : Type} (cap : ℕ) (buf : List α) (vs : List α) : List α :=
  vs.foldl (dequeAppend cap) buf

/-- Arithmetic mean of the held elements, as computed by
`sum(buf) / len(buf)` (lines 170-171 of `FacialExpression.py` and
line 213 of `_5Fingers.py`). -/
def bufMean (buf : List ℚ) : ℚ :=
  buf.sum / (buf.length : ℚ)

/-- Model of `TemporalSmoother.push`: append the value and return the mean of the
currently held elements, together with the new buffer state. -/
def smootherPush (cap : ℕ) (buf : List ℚ) (v : ℚ) : List ℚ × ℚ :=
  let b := dequeAppend cap buf v
  (b, bufMean b)

/-- The expression `max(1, buf_size)`, the deque capacity used by
`SmileDetector.__init__` (lines 130-131 of `FacialExpression.py`) and by
`run_camera_loop` (line 185 of `_5Fingers.py`).  The configured size is
an arbitrary integer (possibly zero or negative). -/
def bufCapacity (bufSize : ℤ) : ℕ :=
  (max 1 bufSize).toNat

/-! ### Expression classification (`SmileDetector`, `FacialExpression.py`) -/

/-- The threshold heuristic of `SmileDetector.compute` (lines 173-179):
smile when the smoothed width is at least `smileThresh` and the smoothed
corner offset is below `-cornerMargin`; frown when the smoothed width is
at most `frownThresh` and the offset is above `cornerMargin`; otherwise
neutral. -/
def classify (smileThresh frownThresh cornerMargin avgW avgCorner : ℚ) : String :=
  if smileThresh ≤ avgW ∧ avgCorner < -cornerMargin then "smile"
  else if avgW ≤ frownThresh ∧ cornerMargin < avgCorner then "frown"
  else "neutral"

/-- The two smoothing buffers owned by a `SmileDetector`. -/
structure SmileDetectorState where
  mouthBuf : List ℚ
  cornerBuf : List ℚ
deriving DecidableEq

/-- Buffer update and classification stage of `SmileDetector.compute`
(lines 167-179): the per-frame normalized mouth width and corner offset
are appended to their buffers, the buffer means are taken, and the
threshold heuristic produces the label. -/
def smileCompute (cap : ℕ) (smileThresh frownThresh cornerMargin : ℚ)
    (st : SmileDetectorState) (mouthWNorm cornerDiffNorm : ℚ) :
    SmileDetectorState × String :=
  let mb := dequeAppend cap st.mouthBuf mouthWNorm
  let cb := dequeAppend cap st.cornerBuf cornerDiffNorm
  (⟨mb, cb⟩, classify smileThresh frownThresh cornerMargin (bufMean mb) (bufMean cb))

/-! ### Hand counting (`HandCounter`, `_5Fingers.py`) -/

/-- A normalized 2D landmark produced by the perception service. -/
structure Landmark where
  x : ℚ
  y : ℚ
deriving DecidableEq

/-- The handedness fallback of `HandCounter.count` (lines 116-119):
a reported non-empty label is used as-is; otherwise the configured
default hand is substituted (`Right` when `assume_right_hand`). -/
def resolveHandLabel (assumeRight : Bool) (handedness : Option String) : String :=
  match handedness with
  | some l => if l.isEmpty then (if assumeRight then "Right" else "Left") else l
  | none => if assumeRight then "Right" else "Left"

/-- The thumb heuristic of `HandCounter.count` (lines 121-139): the
comparison direction between tip (`lm[4]`) and interphalangeal joint
(`lm[3]`) x-coordinates depends on both the hand label and the mirroring
flag. -/
def thumbExtended (flipped : Bool) (handLabel : String) (lm : ℕ → Landmark) : Bool :=
  if handLabel = "Right" then
    if flipped then decide ((lm 4).x < (lm 3).x) else decide ((lm 3).x < (lm 4).x)
  else
    if flipped then decide ((lm 3).x < (lm 4).x) else decide ((lm 4).x < (lm 3).x)

/-- Model of `HandCounter.count` (lines 105-153): thumb by the mirroring-aware
x-comparison, the four other fingers by `tip.y < pip.y` over the loop
`for tip_id in [8, 12, 16, 20]` with `pip = lm[tip_id - 2]`, then the
final clamp to `[0, 5]`. -/
def handCount (assumeRight flipped : Bool) (lm : ℕ → Landmark)
    (handedness : Option String) : ℤ :=
  let handLabel := resolveHandLabel assumeRight handedness
  let f0 : ℤ := if thumbExtended flipped handLabel lm then 1 else 0
  let fingers : ℤ := [8, 12, 16, 20].foldl
    (fun acc tipId => if (lm tipId).y < (lm (tipId - 2)).y then acc + 1 else acc) f0
  let fingers := if fingers < 0 then 0 else fingers
  if fingers > 5 then 5 else fingers

/-- Written from the wording of the spec for comparison with `handCount`:
the five independent binary extension decisions, summed. -/
def specFingerSum (assumeRight flipped : Bool) (lm : ℕ → Landmark)
    (handedness : Option String) : ℤ :=
  (if thumbExtended flipped (resolveHandLabel assumeRight handedness) lm then 1 else 0)
    + (if (lm 8).y < (lm 6).y then 1 else 0)
    + (if (lm 12).y < (lm 10).y then 1 else 0)
    + (if (lm 16).y < (lm 14).y then 1 else 0)
    + (if (lm 20).y < (lm 18).y then 1 else 0)

/-! ### Serial channel (`SerialClient` in both scripts)

The channel state tracks `_available` and whether `_ser` is held.  A
write on the underlying port may fail; that environment outcome is an
explicit `writeOk` argument.  A send returns the new channel state, the
boolean result, and the line written to the wire (if any).
-/

/-- Fields `_available` / `_ser` of a `SerialClient`. -/
structure ChannelState where
  available : Bool
  hasSer : Bool
deriving DecidableEq

/-- The state after a write failure: `_available = False`, `_ser = None`
(the connection was closed and released). -/
def failedChannel : ChannelState :=
  ⟨false, false⟩

/-- ASCII lowercasing of one character, as `str.lower` acts on the
label strings in play. -/
def asciiLowerChar (c : Char) : Char :=
  if 'A' ≤ c ∧ c ≤ 'Z' then Char.ofNat (c.toNat + 32) else c

/-- Normalization applied to the label by `.strip().lower()` (line 84 of
`FacialExpression.py`): drop leading and trailing whitespace, then
lowercase. -/
def pyStripLower (s : String) : String :=
  String.mk ((((s.toList.dropWhile Char.isWhitespace).reverse.dropWhile
    Char.isWhitespace).reverse).map asciiLowerChar)

/-- The label-to-integer mapping of `SerialClient.send_signal`
(lines 79-83 of `FacialExpression.py`). -/
def signalValue (key : String) : Option ℕ :=
  if key = "neutral" then some 2
  else if key = "smile" then some 3
  else if key = "frown" then some 1
  else none

/-- Model of `SerialClient.send_signal` (lines 67-103 of `FacialExpression.py`):
no-op on an unavailable channel; the label is stripped and lowercased
and looked up in the mapping, unknown labels are rejected; on success
the decimal value plus newline is written; a write failure closes and
releases the port and returns `False`. -/
def sendSignal (st : ChannelState) (writeOk : Bool) (label : String) :
    ChannelState × Bool × Option String :=
  if !st.available || !st.hasSer then (st, false, none)
  else
    match signalValue (pyStripLower label) with
    | none => (st, false, none)
    | some v =>
      if writeOk then (st, true, some (toString v ++ "\n"))
      else (failedChannel, false, none)

/-- Model of `SerialClient.send_count` (lines 67-84 of `_5Fingers.py`): no-op on
an unavailable channel; writes the decimal count plus newline; a write
failure closes and releases the port and returns `False`. -/
def sendCount (st : ChannelState) (writeOk : Bool) (n : ℤ) :
    ChannelState × Bool × Option String :=
  if !st.available || !st.hasSer then (st, false, none)
  else if writeOk then (st, true, some (toString n ++ "\n"))
  else (failedChannel, false, none)

/-- A sequence of `send_signal` calls (each with its own label and write
outcome), returning the final channel state and the per-call results. -/
def runSignalSends (st : ChannelState) (calls : List (Bool × String)) :
    ChannelState × List (Bool × Option String) :=
  match calls with
  | [] => (st, [])
  | c :: rest =>
      let r := sendSignal st c.1 c.2
      let rr := runSignalSends r.1 rest
      (rr.1, (r.2.1, r.2.2) :: rr.2)

/-! ### Change gate (`prev_label` / `prev_sent` logic of the main loops) -/

/-- Result of one pass through the send-on-change logic. -/
structure GateOut (α : Type) where
  prev : Option α
  chan : ChannelState
  attempted : Bool
  sent : Bool
  out : Option String
deriving DecidableEq

/-- The send-on-change gate of both main loops (`FacialExpression.py`
lines 244-247, `_5Fingers.py` lines 220-223): when the new value differs
from the last sent one, call the send of the channel; record the new value as
last-sent only when the send reports success. -/
def maybeSend {α : Type} [DecidableEq α]
    (send : ChannelState → Bool → α → ChannelState × Bool × Option String)
    (prev : Option α) (chan : ChannelState) (writeOk : Bool) (label : α) :
    GateOut α :=
  if prev = some label then ⟨prev, chan, false, false, none⟩
  else
    let r := send chan writeOk label
    ⟨if r.2.1 then some label else prev, r.1, true, r.2.1, r.2.2⟩

/-- Iterate the gate over a sequence of frames (write outcome and value
per frame), counting how many underlying channel sends were attempted. -/
def gateRun {α : Type} [DecidableEq α]
    (send : ChannelState → Bool → α → ChannelState × Bool × Option String)
    (prev : Option α) (chan : ChannelState) (frames : List (Bool × α)) :
    Option α × ChannelState × ℕ :=
  match frames with
  | [] => (prev, chan, 0)
  | f :: rest =>
      let r := maybeSend send prev chan f.1 f.2
      let rr := gateRun send r.prev r.chan rest
      (rr.1, rr.2.1, (if r.attempted then 1 else 0) + rr.2.2)

/-! ### Per-frame pipeline steps -/

/-- The Python `round` builtin on an exact rational: round to the nearest
integer, ties to the even neighbour. -/
def pythonRound (q : ℚ) : ℤ :=
  if q - (⌊q⌋ : ℚ) < 1/2 then ⌊q⌋
  else if 1/2 < q - (⌊q⌋ : ℚ) then ⌊q⌋ + 1
  else if ⌊q⌋ % 2 = 0 then ⌊q⌋ else ⌊q⌋ + 1

/-- The value `int(round(sum(buffer) / len(buffer)))` of `_5Fingers.py` line 213. -/
def gestureAvg (buf : List ℤ) : ℤ :=
  pythonRound ((buf.sum : ℚ) / (buf.length : ℚ))

/-- Mutable state of the expression main loop (`run`,
`FacialExpression.py`): the detector buffers, `prev_label`, and the
serial channel. -/
structure ExprState where
  det : SmileDetectorState
  prev : Option String
  chan : ChannelState
deriving DecidableEq

/-- One frame of the expression main loop (lines 228-247 of
`FacialExpression.py`).  The perception service and the geometric
normalization yield either nothing (no face) or the pair of normalized
scalars fed to the detector.  With no face, neither the detector nor the
gate run. -/
def exprFrame (cap : ℕ) (smileThresh frownThresh cornerMargin : ℚ) (writeOk : Bool)
    (obs : Option (ℚ × ℚ)) (st : ExprState) : ExprState :=
  match obs with
  | none => st
  | some (mw, cd) =>
      let r := smileCompute cap smileThresh frownThresh cornerMargin st.det mw cd
      let g := maybeSend sendSignal st.prev st.chan writeOk r.2
      ⟨r.1, g.prev, g.chan⟩

/-- Mutable state of the gesture main loop (`run_camera_loop`,
`_5Fingers.py`): the smoothing buffer, `prev_sent`, and the serial
channel. -/
structure GestState where
  buf : List ℤ
  prev : Option ℤ
  chan : ChannelState
deriving DecidableEq

/-- One frame of the gesture main loop (lines 200-223 of
`_5Fingers.py`): `detected_count` is 0 when no hand is detected,
otherwise `hand_counter.count(...)`; the count is appended to the
smoothing buffer unconditionally; the rounded buffer mean is gated and
possibly sent. -/
def gestureFrame (cap : ℕ) (assumeRight flipped : Bool) (writeOk : Bool)
    (obs : Option ((ℕ → Landmark) × Option String)) (st : GestState) : GestState :=
  let detectedCount : ℤ :=
    match obs with
    | none => 0
    | some (lm, hd) => handCount assumeRight flipped lm hd
  let buf := dequeAppend cap st.buf detectedCount
  let avg := gestureAvg buf
  let g := maybeSend sendCount st.prev st.chan writeOk avg
  ⟨buf, g.prev, g.chan⟩

/-! ### Helper lemmas -/

lemma length_rtake {α : Type} (l : List α) (n : ℕ) :
    (l.rtake n).length = min n l.length := by
  simp [List.rtake, Nat.sub_sub_self, Nat.min_comm]
  omega

lemma rtake_append_rtake {α : Type} (l vs : List α) (n : ℕ) :
    (l.rtake n ++ vs).rtake n = (l ++ vs).rtake n := by
  simp only [List.rtake_eq_reverse_take_reverse, List.reverse_append, List.reverse_reverse,
    List.take_append_eq_append_take, List.take_take, List.length_reverse]
  rw [min_eq_left (Nat.sub_le _ _)]

lemma rtake_of_length_le {α : Type} (l : List α) (n : ℕ) (h : l.length ≤ n) :
    l.rtake n = l := by
  simp [List.rtake, Nat.sub_eq_zero_of_le h]

/-- The buffer state after pushing `vs` into a deque is the last `cap`
elements of `buf ++ vs`, provided the starting buffer already respects
the capacity. -/
lemma pushAll_eq_rtake {α : Type} (cap : ℕ) (vs : List α) :
    ∀ buf : List α, buf.length ≤ cap →
      pushAll cap buf vs = (buf ++ vs).rtake cap := by
  induction vs with
  | nil =>
      intro buf h
      simp [pushAll, rtake_of_length_le _ _ h]
  | cons v vs ih =>
      intro buf h
      have hstep : pushAll cap buf (v :: vs) = pushAll cap (dequeAppend cap buf v) vs := rfl
      have hlen : (dequeAppend cap buf v).length ≤ cap := by
        rw [dequeAppend, length_rtake]
        exact min_le_left _ _
      rw [hstep, ih _ hlen, dequeAppend, rtake_append_rtake]
      simp

/-- The function `HandCounter.count` agrees with the clamped sum of the five
independent per-finger decisions. -/
lemma handCount_eq_clamp (a flipped : Bool) (lm : ℕ → Landmark) (hd : Option String) :
    handCount a flipped lm hd = max 0 (min 5 (specFingerSum a flipped lm hd)) := by
  unfold handCount specFingerSum
  simp only [List.foldl_cons, List.foldl_nil,
    show (8 - 2 : ℕ) = 6 from rfl, show (12 - 2 : ℕ) = 10 from rfl,
    show (16 - 2 : ℕ) = 14 from rfl, show (20 - 2 : ℕ) = 18 from rfl]
  cases hb : thumbExtended flipped (resolveHandLabel a hd) lm <;>
    by_cases h1 : (lm 8).y < (lm 6).y <;>
    by_cases h2 : (lm 12).y < (lm 10).y <;>
    by_cases h3 : (lm 16).y < (lm 14).y <;>
    by_cases h4 : (lm 20).y < (lm 18).y <;>
    simp [h1, h2, h3, h4]

/-- The function `HandCounter.count` always lands in `[0, 5]`. -/
lemma handCount_bounds (a flipped : Bool) (lm : ℕ → Landmark) (hd : Option String) :
    0 ≤ handCount a flipped lm hd ∧ handCount a flipped lm hd ≤ 5 := by
  rw [handCount_eq_clamp]
  omega

/-- The rounding `pythonRound` returns the floor or the floor plus one. -/
lemma pythonRound_mem (q : ℚ) : pythonRound q = ⌊q⌋ ∨ pythonRound q = ⌊q⌋ + 1 := by
  unfold pythonRound
  split_ifs <;> simp

lemma pythonRound_nonneg (q : ℚ) (h : 0 ≤ q) : 0 ≤ pythonRound q := by
  have hf : 0 ≤ ⌊q⌋ := Int.floor_nonneg.mpr h
  rcases pythonRound_mem q with h1 | h1 <;> omega

lemma pythonRound_le_five (q : ℚ) (h : q ≤ 5) : pythonRound q ≤ 5 := by
  have hf : ⌊q⌋ ≤ 5 := by
    have hc : (⌊q⌋ : ℚ) ≤ 5 := le_trans (Int.floor_le q) h
    exact_mod_cast hc
  have hfloor : (⌊q⌋ : ℚ) ≤ q := Int.floor_le q
  unfold pythonRound
  split_ifs with h1 h2 h3
  · exact hf
  · have h5 : (⌊q⌋ : ℚ) < 5 := by linarith
    have h6 : ⌊q⌋ < 5 := by exact_mod_cast h5
    omega
  · exact hf
  · have hge : (1 : ℚ)/2 ≤ q - (⌊q⌋ : ℚ) := not_lt.mp h1
    have h5 : (⌊q⌋ : ℚ) < 5 := by linarith
    have h6 : ⌊q⌋ < 5 := by exact_mod_cast h5
    omega

/-- Sum bounds for a list of per-frame counts in `[0, 5]`. -/
lemma list_sum_bounds (l : List ℤ) (h : ∀ x ∈ l, 0 ≤ x ∧ x ≤ 5) :
    0 ≤ l.sum ∧ l.sum ≤ 5 * (l.length : ℤ) := by
  induction l with
  | nil => simp
  | cons a t ih =>
      have ha := h a (by simp)
      have ht := ih (fun x hx => h x (by simp [hx]))
      simp only [List.sum_cons, List.length_cons]
      push_cast
      omega

/-- The rounded buffer mean stays in `[0, 5]` when every buffered count
does. -/
lemma gestureAvg_bounds (buf : List ℤ) (hne : buf ≠ [])
    (hb : ∀ x ∈ buf, 0 ≤ x ∧ x ≤ 5) :
    0 ≤ gestureAvg buf ∧ gestureAvg buf ≤ 5 := by
  have hlen : 0 < buf.length := List.length_pos.mpr hne
  have hlenq : (0 : ℚ) < (buf.length : ℚ) := by exact_mod_cast hlen
  have hs := list_sum_bounds buf hb
  have hq0 : 0 ≤ ((buf.sum : ℚ) / (buf.length : ℚ)) :=
    div_nonneg (by exact_mod_cast hs.1) (le_of_lt hlenq)
  have hq5 : ((buf.sum : ℚ) / (buf.length : ℚ)) ≤ 5 := by
    rw [div_le_iff₀ hlenq]
    have hcast : (buf.sum : ℚ) ≤ 5 * (buf.length : ℚ) := by exact_mod_cast hs.2
    linarith
  exact ⟨pythonRound_nonneg _ hq0, pythonRound_le_five _ hq5⟩

/-- A successful `send_signal` only ever puts `1`, `2` or `3` on the
wire. -/
lemma sendSignal_success_out (st st2 : ChannelState) (w : Bool) (label out : String)
    (hs : sendSignal st w label = (st2, true, some out)) :
    out = "1\n" ∨ out = "2\n" ∨ out = "3\n" := by
  unfold sendSignal at hs
  by_cases hA : (!st.available || !st.hasSer) = true
  · rw [if_pos hA] at hs
    simp at hs
  · rw [if_neg hA] at hs
    cases hk : signalValue (pyStripLower label) with
    | none =>
        rw [hk] at hs
        simp at hs
    | some v =>
        rw [hk] at hs
        cases w
        · simp at hs
        · simp at hs
          have hout : out = toString v ++ "\n" := hs.2.symm
          unfold signalValue at hk
          split_ifs at hk <;> simp only [Option.some.injEq] at hk <;>
            subst hk <;> subst hout <;> decide

/-- A successful `send_count` writes exactly the decimal count plus
newline. -/
lemma sendCount_success_out (st st2 : ChannelState) (w : Bool) (n : ℤ) (out : String)
    (hs : sendCount st w n = (st2, true, some out)) :
    out = toString n ++ "\n" := by
  unfold sendCount at hs
  by_cases hA : (!st.available || !st.hasSer) = true
  · rw [if_pos hA] at hs
    simp at hs
  · rw [if_neg hA] at hs
    cases w
    · simp at hs
    · simp at hs
      exact hs.2.symm

/-! ### Claims -/

/-- C1: for every window capacity `N ≥ 1` and every sequence of
observations, after `k` pushes the `push` method of the smoother returns the exact
arithmetic mean of the last `min(k, N)` values pushed, the buffer
holding exactly those values (the oldest evicted once `N` are held). -/
theorem smootherPush_mean (N : ℕ) (hN : 1 ≤ N) (vs : List ℚ) (v : ℚ) :
    (smootherPush N (pushAll N [] vs) v).1 = (vs ++ [v]).rtake N
    ∧ (smootherPush N (pushAll N [] vs) v).2
        = ((vs ++ [v]).rtake N).sum / ((min (vs.length + 1) N : ℕ) : ℚ) := by
  have hbuf : pushAll N [] vs = vs.rtake N := by
    simpa using pushAll_eq_rtake N vs [] (by simp)
  have h1 : (smootherPush N (pushAll N [] vs) v).1 = (vs ++ [v]).rtake N := by
    rw [smootherPush, hbuf, dequeAppend, rtake_append_rtake]
  refine ⟨h1, ?_⟩
  have h2 : (smootherPush N (pushAll N [] vs) v).2
      = bufMean ((vs ++ [v]).rtake N) := by
    rw [smootherPush, hbuf, dequeAppend, rtake_append_rtake]
  rw [h2, bufMean, length_rtake]
  congr 2
  simp [Nat.min_comm]

/-- Witness for C1 at a concrete capacity and sequence. -/
theorem smootherPush_mean_witness :
    (smootherPush 2 (pushAll 2 [] [(1 : ℚ), 2]) 4).1 = (([(1 : ℚ), 2]) ++ [4]).rtake 2
    ∧ (smootherPush 2 (pushAll 2 [] [(1 : ℚ), 2]) 4).2
        = ((([(1 : ℚ), 2]) ++ [4]).rtake 2).sum / ((min ([(1 : ℚ), 2].length + 1) 2 : ℕ) : ℚ) :=
  smootherPush_mean 2 (by norm_num) [1, 2] 4

/-- C2: with a nonnegative corner margin (as in the default
configuration), the classifier returns `smile` iff the smoothed width
is at least the smile threshold and the smoothed offset is below the
negated margin, `frown` iff the smoothed width is at most the frown
threshold and the offset exceeds the margin, and `neutral` whenever
neither conjunction holds. -/
theorem classify_iff (s f m w c : ℚ) (hm : 0 ≤ m) :
    (classify s f m w c = "smile" ↔ s ≤ w ∧ c < -m)
    ∧ (classify s f m w c = "frown" ↔ w ≤ f ∧ m < c)
    ∧ (¬(s ≤ w ∧ c < -m) → ¬(w ≤ f ∧ m < c) → classify s f m w c = "neutral") := by
  unfold classify
  by_cases h1 : s ≤ w ∧ c < -m
  · have h2 : ¬(w ≤ f ∧ m < c) := by
      rintro ⟨-, hc⟩
      have := h1.2
      linarith
    rw [if_pos h1]
    exact ⟨⟨fun _ => h1, fun _ => rfl⟩,
      ⟨fun h => absurd h (by decide), fun h => absurd h h2⟩,
      fun hns _ => absurd h1 hns⟩
  · rw [if_neg h1]
    by_cases h2 : w ≤ f ∧ m < c
    · rw [if_pos h2]
      exact ⟨⟨fun h => absurd h (by decide), fun h => absurd h h1⟩,
        ⟨fun _ => h2, fun _ => rfl⟩,
        fun _ hnf => absurd h2 hnf⟩
    · rw [if_neg h2]
      exact ⟨⟨fun h => absurd h (by decide), fun h => absurd h h1⟩,
        ⟨fun h => absurd h (by decide), fun h => absurd h h2⟩,
        fun _ _ => rfl⟩

/-- Witness for C2: at the default thresholds, smoothed width `0.35`
with smoothed offset `+0.02` classifies as `neutral`, never `smile`. -/
theorem classify_iff_witness :
    classify 0.32 0.22 0.015 0.35 0.02 = "neutral" :=
  (classify_iff 0.32 0.22 0.015 0.35 0.02 (by norm_num)).2.2
    (by rintro ⟨-, h⟩; norm_num at h) (by rintro ⟨h, -⟩; norm_num at h)

/-- C10: for every configured smoothing window size, including zero and
negative values, the buffer capacity is `max(1, size) ≥ 1`, and the
buffer is non-empty after any push, so the denominator of the mean is never
zero. -/
theorem bufCapacity_safe (n : ℤ) (buf : List ℚ) (v : ℚ) :
    1 ≤ bufCapacity n
    ∧ dequeAppend (bufCapacity n) buf v ≠ []
    ∧ 0 < (dequeAppend (bufCapacity n) buf v).length := by
  have hc : 1 ≤ bufCapacity n := by
    have h1 : (1 : ℤ) ≤ max 1 n := le_max_left _ _
    unfold bufCapacity
    omega
  have hlen : 0 < (dequeAppend (bufCapacity n) buf v).length := by
    rw [dequeAppend, length_rtake]
    simp only [List.length_append, List.length_cons, List.length_nil]
    omega
  exact ⟨hc, fun h => by simp [h] at hlen, hlen⟩

/-- C4: the thumb-extension decision follows the 2×2
handedness/mirroring table, and an unreported handedness is replaced by
the configured default hand (the `Right` label when `assume_right_hand`,
which is the constructor default) rather than failing. -/
theorem thumb_table (a : Bool) (lm : ℕ → Landmark) :
    (thumbExtended true "Right" lm = true ↔ (lm 4).x < (lm 3).x)
    ∧ (thumbExtended false "Right" lm = true ↔ (lm 3).x < (lm 4).x)
    ∧ (thumbExtended true "Left" lm = true ↔ (lm 3).x < (lm 4).x)
    ∧ (thumbExtended false "Left" lm = true ↔ (lm 4).x < (lm 3).x)
    ∧ resolveHandLabel a none = (if a then "Right" else "Left")
    ∧ resolveHandLabel true none = "Right"
    ∧ (∀ flipped : Bool,
        handCount a flipped lm none
          = handCount a flipped lm (some (if a then "Right" else "Left"))) := by
  refine ⟨?_, ?_, ?_, ?_, rfl, rfl, ?_⟩
  · simp [thumbExtended]
  · simp [thumbExtended]
  · simp [thumbExtended]
  · simp [thumbExtended]
  · intro flipped
    cases a <;> rfl

/-- C5: each non-thumb finger counts as extended iff the tip
y-coordinate is strictly below (numerically less than) the
proximal-joint y-coordinate, the returned total is the sum of the five
independent binary decisions clamped to `[0, 5]`, and the result is
always within `[0, 5]` for arbitrary landmark input. -/
theorem handCount_clamped_sum (a flipped : Bool) (lm : ℕ → Landmark) (hd : Option String) :
    handCount a flipped lm hd = max 0 (min 5 (specFingerSum a flipped lm hd))
    ∧ 0 ≤ handCount a flipped lm hd ∧ handCount a flipped lm hd ≤ 5 :=
  ⟨handCount_eq_clamp a flipped lm hd, handCount_bounds a flipped lm hd⟩

/-- C6: on an open channel with a working write, `neutral` is
transmitted as the decimal integer 2, `smile` as 3 and `frown` as 1,
each followed by a newline; a label outside the mapping makes the send
return false with nothing written, in every channel state. -/
theorem sendSignal_mapping (st : ChannelState) (w : Bool) (label : String)
    (hav : st.available = true) (hser : st.hasSer = true) (hw : w = true) :
    sendSignal st w "neutral" = (st, true, some "2\n")
    ∧ sendSignal st w "smile" = (st, true, some "3\n")
    ∧ sendSignal st w "frown" = (st, true, some "1\n")
    ∧ (signalValue (pyStripLower label) = none →
        ∀ (st2 : ChannelState) (w2 : Bool), sendSignal st2 w2 label = (st2, false, none)) := by
  obtain ⟨av, hs⟩ := st
  subst hw
  simp only at hav hser
  subst hav hser
  refine ⟨by decide, by decide, by decide, ?_⟩
  intro h st2 w2
  by_cases h2 : (!st2.available || !st2.hasSer) = true
  · simp [sendSignal, h2]
  · simp [sendSignal, h2, h]

/-- Witness for C6 at a concrete open channel and an unmapped label. -/
theorem sendSignal_mapping_witness :
    sendSignal ⟨true, true⟩ true "smile" = (⟨true, true⟩, true, some "3\n")
    ∧ sendSignal ⟨true, true⟩ true "wave" = (⟨true, true⟩, false, none) :=
  ⟨(sendSignal_mapping ⟨true, true⟩ true "wave" rfl rfl rfl).2.1,
    (sendSignal_mapping ⟨true, true⟩ true "wave" rfl rfl rfl).2.2.2 (by decide) ⟨true, true⟩ true⟩

/-- C8: a write failure on an open channel releases the connection
(`_ser = None`, `_available = False`) and returns false, and the failed
state is terminal for the session: every subsequent send, in either
variant, returns false, writes nothing, and leaves the channel in the
same released state (no reopen ever happens inside a send). -/
theorem writeFailure_terminal (st : ChannelState) (label : String) (v : ℕ) (n : ℤ)
    (hav : st.available = true) (hser : st.hasSer = true)
    (hmap : signalValue (pyStripLower label) = some v) :
    sendSignal st false label = (failedChannel, false, none)
    ∧ sendCount st false n = (failedChannel, false, none)
    ∧ (∀ (w : Bool) (l : String), sendSignal failedChannel w l = (failedChannel, false, none))
    ∧ (∀ (w : Bool) (m : ℤ), sendCount failedChannel w m = (failedChannel, false, none))
    ∧ (∀ calls : List (Bool × String),
        (runSignalSends failedChannel calls).1 = failedChannel
        ∧ ∀ r ∈ (runSignalSends failedChannel calls).2, r = (false, none)) := by
  have hfail : ∀ (w : Bool) (l : String),
      sendSignal failedChannel w l = (failedChannel, false, none) := by
    intro w l
    simp [sendSignal, failedChannel]
  refine ⟨?_, ?_, hfail, ?_, ?_⟩
  · simp [sendSignal, hav, hser, hmap]
  · simp [sendCount, hav, hser]
  · intro w m
    simp [sendCount, failedChannel]
  · intro calls
    induction calls with
    | nil => exact ⟨rfl, by simp [runSignalSends]⟩
    | cons c rest ih =>
        refine ⟨?_, ?_⟩
        · show (runSignalSends (sendSignal failedChannel c.1 c.2).1 rest).1 = failedChannel
          rw [hfail]
          exact ih.1
        · intro r hr
          have hr2 : r = ((sendSignal failedChannel c.1 c.2).2.1,
                (sendSignal failedChannel c.1 c.2).2.2)
              ∨ r ∈ (runSignalSends (sendSignal failedChannel c.1 c.2).1 rest).2 := by
            simpa [runSignalSends] using hr
          rcases hr2 with h | h
          · rw [hfail] at h
            simpa using h
          · rw [hfail] at h
            exact ih.2 r h

/-- Witness for C8 at a concrete open channel and a failing write. -/
theorem writeFailure_terminal_witness :
    sendSignal ⟨true, true⟩ false "neutral" = (failedChannel, false, none)
    ∧ sendSignal failedChannel true "neutral" = (failedChannel, false, none) :=
  ⟨(writeFailure_terminal ⟨true, true⟩ "neutral" 2 0 rfl rfl (by decide)).1,
    (writeFailure_terminal ⟨true, true⟩ "neutral" 2 0 rfl rfl (by decide)).2.2.1 true "neutral"⟩

/-- C7: the gate calls the send of the channel iff the new value differs
from the last sent one; the last-sent value is updated exactly on a
successful send; after one successful send, arbitrarily many repeated
frames with the same value attempt no further channel sends; after a
failed send the last-sent value is unchanged, so a later frame with
that same value attempts the send again. -/
theorem gate_change_only {α : Type} [DecidableEq α]
    (send : ChannelState → Bool → α → ChannelState × Bool × Option String)
    (prev : Option α) (chan : ChannelState) (w : Bool) (label : α) :
    ((maybeSend send prev chan w label).attempted = true ↔ prev ≠ some label)
    ∧ (prev = some label →
        maybeSend send prev chan w label = ⟨prev, chan, false, false, none⟩)
    ∧ (prev ≠ some label → (send chan w label).2.1 = true →
        (maybeSend send prev chan w label).prev = some label)
    ∧ (prev ≠ some label → (send chan w label).2.1 = false →
        (maybeSend send prev chan w label).prev = prev)
    ∧ (∀ ws : List Bool,
        gateRun send (some label) chan (ws.map (fun b => (b, label)))
          = (some label, chan, 0))
    ∧ (prev ≠ some label → (send chan w label).2.1 = false →
        ∀ (chan2 : ChannelState) (w2 : Bool),
          (maybeSend send ((maybeSend send prev chan w label).prev) chan2 w2 label).attempted
            = true) := by
  have hrepeat : ∀ ws : List Bool,
      gateRun send (some label) chan (ws.map (fun b => (b, label)))
        = (some label, chan, 0) := by
    intro ws
    induction ws with
    | nil => rfl
    | cons b rest ih =>
        have hr : maybeSend send (some label) chan b label
            = ⟨some label, chan, false, false, none⟩ := by
          unfold maybeSend
          rw [if_pos rfl]
        simp [gateRun, hr, ih]
  refine ⟨?_, ?_, ?_, ?_, hrepeat, ?_⟩
  · unfold maybeSend
    by_cases h : prev = some label
    · rw [if_pos h]
      simp [h]
    · rw [if_neg h]
      simp [h]
  · intro h
    unfold maybeSend
    rw [if_pos h]
  · intro h hsucc
    unfold maybeSend
    rw [if_neg h]
    simp [hsucc]
  · intro h hfail
    unfold maybeSend
    rw [if_neg h]
    simp [hfail]
  · intro h hfail chan2 w2
    have hprev : (maybeSend send prev chan w label).prev = prev := by
      unfold maybeSend
      rw [if_neg h]
      simp [hfail]
    rw [hprev]
    unfold maybeSend
    rw [if_neg h]

/-- Witness for C7 at a concrete open channel, with a successful and a
failing send of the `smile` label. -/
theorem gate_change_only_witness :
    (maybeSend sendSignal (none : Option String) ⟨true, true⟩ true "smile").attempted = true
    ∧ (maybeSend sendSignal (none : Option String) ⟨true, true⟩ true "smile").prev
        = some "smile"
    ∧ (maybeSend sendSignal (none : Option String) ⟨true, true⟩ false "smile").prev = none
    ∧ gateRun sendSignal (some "smile") ⟨true, true⟩
        ([true, true, true].map (fun b => (b, "smile")))
        = (some "smile", ⟨true, true⟩, 0) :=
  ⟨(gate_change_only sendSignal none ⟨true, true⟩ true "smile").1.mpr (by simp),
    (gate_change_only sendSignal none ⟨true, true⟩ true "smile").2.2.1 (by simp) (by decide),
    (gate_change_only sendSignal none ⟨true, true⟩ false "smile").2.2.2.1 (by simp) (by decide),
    (gate_change_only sendSignal none ⟨true, true⟩ true "smile").2.2.2.2.1 [true, true, true]⟩

/-- C9: every value a successful send transmits lies in the stated set:
the expression variant only writes `1`, `2` or `3`, and the gesture
variant writes the rounded buffer mean, which stays in `[0, 5]` because
every buffered per-frame count (a `HandCounter.count` result, or the 0
of a no-hand frame) is in `[0, 5]`. -/
theorem sent_values_in_range (st st2 st3 st4 : ChannelState) (w w2 : Bool)
    (label out out2 : String) (buf : List ℤ)
    (hs : sendSignal st w label = (st2, true, some out))
    (hne : buf ≠ []) (hb : ∀ x ∈ buf, 0 ≤ x ∧ x ≤ 5)
    (hc : sendCount st3 w2 (gestureAvg buf) = (st4, true, some out2)) :
    (out = "1\n" ∨ out = "2\n" ∨ out = "3\n")
    ∧ (0 ≤ gestureAvg buf ∧ gestureAvg buf ≤ 5)
    ∧ out2 = toString (gestureAvg buf) ++ "\n"
    ∧ (∀ (a flipped : Bool) (lm : ℕ → Landmark) (hd : Option String),
        0 ≤ handCount a flipped lm hd ∧ handCount a flipped lm hd ≤ 5) :=
  ⟨sendSignal_success_out st st2 w label out hs,
    gestureAvg_bounds buf hne hb,
    sendCount_success_out st3 st4 w2 (gestureAvg buf) out2 hc,
    fun a flipped lm hd => handCount_bounds a flipped lm hd⟩

/-- Witness for C9 at a concrete open channel, label, and buffer. -/
theorem sent_values_in_range_witness :
    ("3\n" = "1\n" ∨ "3\n" = "2\n" ∨ ("3\n" : String) = "3\n")
    ∧ (0 ≤ gestureAvg [5, 4] ∧ gestureAvg [5, 4] ≤ 5)
    ∧ toString (gestureAvg [5, 4]) ++ "\n" = toString (gestureAvg [5, 4]) ++ "\n"
    ∧ (∀ (a flipped : Bool) (lm : ℕ → Landmark) (hd : Option String),
        0 ≤ handCount a flipped lm hd ∧ handCount a flipped lm hd ≤ 5) :=
  sent_values_in_range ⟨true, true⟩ ⟨true, true⟩ ⟨true, true⟩ ⟨true, true⟩ true true
    "smile" "3\n" (toString (gestureAvg [5, 4]) ++ "\n") [5, 4]
    (by decide) (by decide) (by decide) rfl

/-- C3 counterexample: on a gesture-pipeline frame with no hand
detected, the smoothing buffer is not left unchanged — a 0 is appended
(line 212 of `_5Fingers.py` runs unconditionally). -/
theorem gesture_dropout_appends_zero :
    (gestureFrame 5 true true true none ⟨[], none, failedChannel⟩).buf
      ≠ (⟨[], none, failedChannel⟩ : GestState).buf := by
  have h : (gestureFrame 5 true true true none ⟨[], none, failedChannel⟩).buf = [0] := rfl
  rw [h]
  simp

/-- C3 amended: on a frame with no detected subject, the expression
pipeline leaves its whole state (both smoothing buffers, the last-sent
label and the channel) unchanged, while the gesture pipeline appends a
default count of 0 to its smoothing buffer. -/
theorem dropout_frame_effect (cap : ℕ) (s f m : ℚ) (w : Bool) (st : ExprState)
    (cap2 : ℕ) (a fl w2 : Bool) (st2 : GestState) :
    exprFrame cap s f m w none st = st
    ∧ (gestureFrame cap2 a fl w2 none st2).buf = dequeAppend cap2 st2.buf 0 :=
  ⟨rfl, rfl⟩

end CVA
